import Mathlib

/-!
Verification development for the QEMU Manager application
(`config.py`, `qemu_domain/`, `qemu_adapters/`, `qemu_ui/main_window.py`).

The Python sources are shallowly embedded:

* Python `dict`s (`running_vms`, `running_processes`, the JSON stores)
  become association lists `List (String × α)` with the operations
  `dGet` (lookup, `d[k]` / `d.get(k)`), `dSet` (assignment `d[k] = v`),
  `dDel` (`del d[k]`) and `dMem` (`k in d`).
* A `subprocess.Popen` handle becomes `Proc`, recording the two facts the
  code can observe about the operating-system process: whether it has
  already exited (`exited`, what `poll()` would report) and whether it
  terminates within the 5-second `wait(timeout=5)` window
  (`terminates_in_time`; `false` means `wait` raises `TimeoutExpired`).
* `QEMUCommandBuilder.build_command` becomes `build_command`, a pure
  function producing the same command string by the same sequence of
  string concatenations.
* The UI-level lifecycle handlers of `QEMUManagerUI` become state
  transformers over `AppState`.
-/

/-! ## Python dictionaries as association lists -/

/-- Lookup in a Python dict: `d.get(k)` / `d[k]`. Returns the first
binding of the key (keys are unique in states built by the code). -/
def dGet {α : Type} (d : List (String × α)) (k : String) : Option α :=
  match d with
  | [] => none
  | (k', v) :: d' => if k' = k then some v else dGet d' k

/-- Membership in a Python dict: `k in d`. -/
def dMem {α : Type} (k : String) (d : List (String × α)) : Bool :=
  (dGet d k).isSome

/-- Assignment `d[k] = v`: overwrites the existing binding in place, or
appends a new one (Python dicts keep insertion order). -/
def dSet {α : Type} (k : String) (v : α) (d : List (String × α)) :
    List (String × α) :=
  match d with
  | [] => [(k, v)]
  | (k', v') :: d' => if k' = k then (k, v) :: d' else (k', v') :: dSet k v d'

/-- Deletion `del d[k]`. -/
def dDel {α : Type} (k : String) (d : List (String × α)) :
    List (String × α) :=
  d.filter (fun kv => kv.1 ≠ k)

/-- Keys of a dict are pairwise distinct. -/
def NodupKeys {α : Type} (d : List (String × α)) : Prop :=
  (d.map Prod.fst).Nodup

/-! ## Domain models (`qemu_domain/models.py`) -/

/-- `VMStatus` enum. -/
inductive VMStatus where
  | stopped
  | running
  | paused
deriving DecidableEq, Repr

/-- `VMStatus.value`, the string persisted in JSON. -/
def VMStatus.value : VMStatus → String
  | .stopped => "stopped"
  | .running => "running"
  | .paused => "paused"

/-- The `VirtualMachine` dataclass, together with the two *dynamic*
attributes `vga` and `boot_order` that `VMUseCase.create_vm` attaches
after construction.  A dataclass instance built without them (as
`JSONVMRepository.find_by_name` does) has them `none`; `build_command`
reads them through `getattr` with defaults. -/
structure VirtualMachine where
  name : String
  disk : String
  iso : Option String
  cpus : Nat
  ram : Nat
  os : String
  status : VMStatus
  auto_detected : Bool
  vga : Option String
  boot_order : Option String
deriving DecidableEq, Repr

/-- `VideoConfig` (only the fields `build_command` reads). -/
structure VideoConfig where
  gl_acceleration : Bool
  virgl : Bool
deriving DecidableEq, Repr

/-- `AudioConfig` (only the fields `build_command` reads). -/
structure AudioConfig where
  enabled : Bool
  driver : String
  model : String
deriving DecidableEq, Repr

/-- `USBConfig` (only the fields `build_command` reads). -/
structure USBConfig where
  ports : Nat
deriving DecidableEq, Repr

/-! ## Validation (`config.py`) -/

/-- `config.MAX_VM_NAME_LENGTH`. -/
def MAX_VM_NAME_LENGTH : Nat := 64

/-- `config.VALID_NAME_CHARS`. -/
def VALID_NAME_CHARS : String :=
  "abcdefghijklmnopqrstuvwxyzABCDEFGHIJKLMNOPQRSTUVWXYZ0123456789-_"

/-- `config.is_valid_vm_name`: empty or over-long names are invalid;
otherwise every character must come from `VALID_NAME_CHARS`. -/
def is_valid_vm_name (name : String) : Bool :=
  if name = "" ∨ name.length > MAX_VM_NAME_LENGTH then false
  else name.data.all (fun c => VALID_NAME_CHARS.data.contains c)

/-! ## Substring search (Python's `in` operator on strings) -/

/-- `hasPre p s`: `p` is a prefix of `s` (character lists). -/
def hasPre : List Char → List Char → Bool
  | [], _ => true
  | _ :: _, [] => false
  | c :: p, d :: s => c == d && hasPre p s

/-- `hasSub p s`: `p` occurs as a contiguous run inside `s`. -/
def hasSub (p : List Char) : List Char → Bool
  | [] => hasPre p []
  | d :: s => hasPre p (d :: s) || hasSub p s

/-- Python's `pat in s` on strings. -/
def containsStr (pat s : String) : Bool :=
  hasSub pat.data s.data

/-! ## Command builder (`qemu_domain/use_cases.py`, `QEMUCommandBuilder`) -/

/-- `QEMUCommandBuilder._quote_path`. -/
def quote_path (path : String) : String :=
  "\"" ++ path ++ "\""

/-- `getattr(vm, 'boot_order', 'Disco duro (para arrancar SO)')`. -/
def bootOrderOf (vm : VirtualMachine) : String :=
  vm.boot_order.getD "Disco duro (para arrancar SO)"

/-- `getattr(vm, 'vga', 'qxl')`. -/
def vgaOf (vm : VirtualMachine) : String :=
  vm.vga.getD "qxl"

/-- The acceleration type reported by `ConfigManager.get_acceleration_type`
(a host-configuration input to command building). -/
inductive AccelType where
  | noAccel
  | kvm
  | whpx
  | hax
  | other
deriving DecidableEq, Repr

/-- `ConfigManager.get_acceleration_flag`. -/
def get_acceleration_flag : AccelType → String
  | .noAccel => ""
  | .kvm => " -enable-kvm"
  | .whpx => " -accel whpx"
  | .hax => " -accel hax"
  | .other => ""

/-- The `-device usb-port,...` loop: `for i in range(usb.ports)`. -/
def usbPortFlags (ports : Nat) : String :=
  String.join ((List.range ports).map
    (fun i => " -device usb-port,bus=ehci.0,nr=" ++ toString (i + 1)))

/-- `QEMUCommandBuilder.build_command`, one string concatenation per
`cmd +=` statement of the source.  `accel` stands for the host
configuration consulted through `get_config().get_acceleration_flag()`.
Python truthiness: `if vm.iso:` is false for `None` and for `""`;
`if vm.disk:` is false for `""`. -/
def build_command (accel : AccelType) (vm : VirtualMachine)
    (video : Option VideoConfig) (audio : Option AudioConfig)
    (usb : Option USBConfig) : String :=
  "qemu-system-x86_64"
  ++ (" -name " ++ vm.name)
  ++ (" -m " ++ toString vm.ram)
  ++ (" -smp cores=" ++ toString vm.cpus)
  ++ (match vm.iso with
      | none => ""
      | some i => if i = "" then "" else " -cdrom " ++ quote_path i)
  ++ (if vm.disk = "" then "" else " -hda " ++ quote_path vm.disk)
  ++ (if containsStr "Disco duro" (bootOrderOf vm) then
        " -boot order=cd,menu=on,splash-time=5000"
      else
        " -boot order=dc,menu=on,splash-time=5000")
  ++ " -usb"
  ++ " -device usb-kbd"
  ++ " -device usb-mouse"
  ++ (" -vga " ++ vgaOf vm)
  ++ " -display gtk,grab-on-hover=on"
  ++ (match video with
      | none => ""
      | some v =>
        (if v.gl_acceleration then " -enable-kvm" else "")
        ++ (if v.virgl then " -device virtio-gpu-gl" else ""))
  ++ (match audio with
      | none => ""
      | some a =>
        if a.enabled then
          (" -audiodev " ++ a.driver ++ ",id=audio0")
          ++ (" -device " ++ a.model ++ ",audiodev=audio0")
        else "")
  ++ " -net nic,model=virtio"
  ++ " -net user"
  ++ (match usb with
      | none => ""
      | some u => " -device usb-ehci,id=ehci" ++ usbPortFlags u.ports)
  ++ get_acceleration_flag accel
  ++ " &"

/-! ## Use case layer (`qemu_domain/use_cases.py`, `VMUseCase`) -/

/-- `VMUseCase.create_vm`: constructs the dataclass with
`status=VMStatus.STOPPED` (and `auto_detected` at its dataclass default
`False`), then attaches the dynamic attributes `vga` and `boot_order`.
The `vga`/`boot_order` arguments default to `"qxl"` and
`"Disco duro (para arrancar SO)"` at the call sites that omit them. -/
def create_vm (name disk : String) (iso : Option String) (cpus ram : Nat)
    (os vga boot_order : String) : VirtualMachine :=
  { name := name
    disk := disk
    iso := iso
    cpus := cpus
    ram := ram
    os := os
    status := VMStatus.stopped
    auto_detected := false
    vga := some vga
    boot_order := some boot_order }

/-! ## JSON repository (`qemu_adapters/repositories.py`, `JSONVMRepository`) -/

/-- The JSON object `JSONVMRepository.save` writes for one VM: exactly the
eight dataclass fields.  The dynamic attributes `vga` and `boot_order`
are not serialized. -/
structure VMRecord where
  name : String
  disk : String
  iso : Option String
  cpus : Nat
  ram : Nat
  os : String
  status : VMStatus
  auto_detected : Bool
deriving DecidableEq, Repr

/-- The store `vms.json`: a JSON object keyed by VM name. -/
abbrev VMStore : Type := List (String × VMRecord)

/-- `JSONVMRepository.save`: `vms[vm.name] = {...}` with the eight fields. -/
def vmrepo_save (vm : VirtualMachine) (store : VMStore) : VMStore :=
  dSet vm.name
    { name := vm.name
      disk := vm.disk
      iso := vm.iso
      cpus := vm.cpus
      ram := vm.ram
      os := vm.os
      status := vm.status
      auto_detected := vm.auto_detected }
    store

/-- `JSONVMRepository.find_by_name`: rebuilds a `VirtualMachine` from the
stored fields.  The reconstructed dataclass has no `vga`/`boot_order`
attributes (they were never serialized), hence `none`. -/
def vmrepo_find_by_name (name : String) (store : VMStore) :
    Option VirtualMachine :=
  match dGet store name with
  | none => none
  | some data =>
    some
      { name := data.name
        disk := data.disk
        iso := data.iso
        cpus := data.cpus
        ram := data.ram
        os := data.os
        status := data.status
        auto_detected := data.auto_detected
        vga := none
        boot_order := none }

/-- `JSONVMRepository.delete`. -/
def vmrepo_delete (name : String) (store : VMStore) : VMStore :=
  dDel name store

/-- `QEMUManagerUI.save_config`: rejects only an empty name, then calls
`VMUseCase.create_vm` (which persists through `vmrepo_save`).  The
subsequent `vm.boot_order = ...; vm.vga = ...; self.vm_use_case.update_vm(vm)`
raises `AttributeError` (`JSONVMRepository` defines no `update` method),
which the surrounding `except` swallows, so the net effect on the store
is the `create_vm` save alone.  No name validation is performed. -/
def save_config (name disk : String) (iso : Option String) (cpus ram : Nat)
    (os : String) (store : VMStore) : VMStore :=
  if name = "" then store
  else vmrepo_save
    (create_vm name disk iso cpus ram os "qxl" "Disco duro (para arrancar SO)")
    store

/-! ## Process handles and the executor (`qemu_adapters/qemu_executor.py`) -/

/-- `config.QEMU_STOP_TIMEOUT`, the `wait` timeout in seconds. -/
def QEMU_STOP_TIMEOUT : Nat := 5

/-- A `subprocess.Popen` handle, abstracted to what the lifecycle code can
observe: `exited` is what a non-blocking `poll()` would report about the
underlying OS process, and `terminates_in_time` tells whether
`terminate(); wait(timeout=5)` returns within the window (`false` means
`wait` raises `TimeoutExpired`). -/
structure Proc where
  pid : Nat
  exited : Bool
  terminates_in_time : Bool
deriving DecidableEq, Repr

/-- `QEMUExecutorImpl.start_vm`: builds the command, spawns it with
`Popen(command, shell=True)` and registers the handle under `vm.name`,
overwriting any existing binding.  `spawn` is the environment's answer:
`some p` when `Popen` returns a handle, `none` when it raises (then the
`except` branch returns `False` and nothing is registered). -/
def exec_start_vm (spawn : Option Proc) (vmName : String)
    (procs : List (String × Proc)) : Bool × List (String × Proc) :=
  match spawn with
  | none => (false, procs)
  | some p => (true, dSet vmName p procs)

/-- `QEMUExecutorImpl.stop_vm`: if the name is tracked, `terminate()` then
`wait(timeout=5)`; on success the entry is deleted and `True` returned.
If `wait` times out the `except` branch returns `False` — the entry is
*not* deleted and no `kill()` is issued.  Untracked names return `False`. -/
def exec_stop_vm (name : String) (procs : List (String × Proc)) :
    Bool × List (String × Proc) :=
  match dGet procs name with
  | none => (false, procs)
  | some p =>
    if p.terminates_in_time then (true, dDel name procs)
    else (false, procs)

/-! ## UI lifecycle (`qemu_ui/main_window.py`, `QEMUManagerUI`) -/

/-- The mutable state the lifecycle handlers touch:
`procs` is `qemu_executor.running_processes`, `running` is the UI's
`self.running_vms` (values always `True`), `repo` is the JSON store
behind `vm_use_case`. -/
structure AppState where
  procs : List (String × Proc)
  running : List (String × Bool)
  repo : VMStore
deriving DecidableEq, Repr

/-- Result of `QEMUManagerUI.start_vm`. -/
inductive StartResult where
  | notFound
  | alreadyRunning
  | startFailed
  | started
deriving DecidableEq, Repr

/-- `QEMUManagerUI.start_vm` for a selected VM named `n`:
look the VM up (`get_vm`), reject unknown names, reject names already in
`running_vms`, otherwise delegate to the executor and on success record
`running_vms[n] = True`.  The executor registers the handle under
`vm.name` (the name stored in the JSON record). -/
def ui_start_vm (spawn : Option Proc) (n : String) (st : AppState) :
    StartResult × AppState :=
  match vmrepo_find_by_name n st.repo with
  | none => (.notFound, st)
  | some vm =>
    if dMem n st.running then (.alreadyRunning, st)
    else
      match exec_start_vm spawn vm.name st.procs with
      | (true, procs') =>
        (.started, { st with procs := procs', running := dSet n true st.running })
      | (false, procs') =>
        (.startFailed, { st with procs := procs' })

/-- Result of `QEMUManagerUI.stop_vm`. -/
inductive StopResult where
  | notRunning
  | stopFailed
  | stopped
deriving DecidableEq, Repr

/-- `QEMUManagerUI.stop_vm`: if `n` is in `running_vms`, call the
executor's `stop_vm`; only on success is the `running_vms` entry deleted.
A failed executor stop leaves both maps as the executor left them. -/
def ui_stop_vm (n : String) (st : AppState) : StopResult × AppState :=
  if dMem n st.running then
    match exec_stop_vm n st.procs with
    | (true, procs') =>
      (.stopped, { st with procs := procs', running := dDel n st.running })
    | (false, procs') =>
      (.stopFailed, { st with procs := procs' })
  else (.notRunning, st)

/-- Result of `QEMUManagerUI.restart_vm`. -/
inductive RestartResult where
  | notRunningWarned
  | stopFailedError
  | restartFailed
  | restarted
deriving DecidableEq, Repr

/-- `QEMUManagerUI.restart_vm`: warns and does nothing if `n` is not in
`running_vms`; otherwise stops via the executor, deletes the
`running_vms` entry, sleeps one second, re-reads the VM and starts it
again (`if vm and self.qemu_executor.start_vm(vm)`). -/
def ui_restart_vm (spawn : Option Proc) (n : String) (st : AppState) :
    RestartResult × AppState :=
  if dMem n st.running then
    match exec_stop_vm n st.procs with
    | (true, procs') =>
      let st1 : AppState :=
        { st with procs := procs', running := dDel n st.running }
      match vmrepo_find_by_name n st1.repo with
      | none => (.restartFailed, st1)
      | some vm =>
        match exec_start_vm spawn vm.name st1.procs with
        | (true, procs2) =>
          (.restarted,
            { st1 with procs := procs2, running := dSet n true st1.running })
        | (false, procs2) => (.restartFailed, { st1 with procs := procs2 })
    | (false, procs') => (.stopFailedError, { st with procs := procs' })
  else (.notRunningWarned, st)

/-- `QEMUManagerUI.shutdown_vm`: like `stop_vm` but asks for confirmation
first (`confirm = false` models answering *No*). -/
def ui_shutdown_vm (confirm : Bool) (n : String) (st : AppState) :
    StopResult × AppState :=
  if dMem n st.running then
    if confirm then
      match exec_stop_vm n st.procs with
      | (true, procs') =>
        (.stopped, { st with procs := procs', running := dDel n st.running })
      | (false, procs') => (.stopFailed, { st with procs := procs' })
    else (.notRunning, st)
  else (.notRunning, st)

/-- `QEMUManagerUI.update_vm_status`, the 2-second poll tick:
`dead_vms = [name for name in self.running_vms
             if not self.qemu_executor.running_processes.get(name)]`
followed by deletion of those names.  A `Popen` object is always truthy,
so a name is removed exactly when it is *absent* from
`running_processes`; the underlying process's exit status is never
consulted. -/
def update_vm_status (st : AppState) : AppState :=
  { st with running := st.running.filter (fun kv => dMem kv.1 st.procs) }

/-- One `closeEvent` iteration: `self.qemu_executor.stop_vm(vm_name)`
without touching `running_vms`. -/
def close_stop (n : String) (st : AppState) : AppState :=
  { st with procs := (exec_stop_vm n st.procs).2 }

/-- Saving a VM record through the use case (`save_config` path). -/
def app_save_vm (vm : VirtualMachine) (st : AppState) : AppState :=
  { st with repo := vmrepo_save vm st.repo }

/-- Deleting a VM record (`QEMUManagerUI.delete_vm`). -/
def app_delete_vm (n : String) (st : AppState) : AppState :=
  { st with repo := vmrepo_delete n st.repo }

/-- Well-formed store: the JSON object is keyed by the `name` field of
each record, as every write through `vmrepo_save` guarantees. -/
def StoreWF (store : VMStore) : Prop :=
  ∀ k r, dGet store k = some r → r.name = k

/-- States reachable by the application.  At construction time
`running_processes` and `running_vms` are empty; `handle_orphaned_vms`
may then populate `running_vms` only (adoption via
`sync_running_vms_state`, which scans the OS process table), which the
`boot` constructor over-approximates by allowing an arbitrary initial
`running` map.  After that the state evolves through the UI handlers,
the poll tick, the `closeEvent` loop and the repository writes. -/
inductive Reach : AppState → Prop where
  | boot (running0 : List (String × Bool)) (repo0 : VMStore)
      (hwf : StoreWF repo0) :
      Reach { procs := [], running := running0, repo := repo0 }
  | start (spawn : Option Proc) (n : String) (st : AppState) :
      Reach st → Reach (ui_start_vm spawn n st).2
  | stop (n : String) (st : AppState) :
      Reach st → Reach (ui_stop_vm n st).2
  | restart (spawn : Option Proc) (n : String) (st : AppState) :
      Reach st → Reach (ui_restart_vm spawn n st).2
  | shutdown (confirm : Bool) (n : String) (st : AppState) :
      Reach st → Reach (ui_shutdown_vm confirm n st).2
  | tick (st : AppState) : Reach st → Reach (update_vm_status st)
  | closeStop (n : String) (st : AppState) : Reach st → Reach (close_stop n st)
  | saveVm (vm : VirtualMachine) (st : AppState) :
      Reach st → Reach (app_save_vm vm st)
  | deleteVm (n : String) (st : AppState) :
      Reach st → Reach (app_delete_vm n st)

/-- The registry query the UI presents to the user
(`VMListPresenter.present_vms` / `InfoPanelPresenter.present_vm_info`
show a VM as running iff `vm.name in running_vms`). -/
def is_running (n : String) (st : AppState) : Bool :=
  dMem n st.running

/-! ## Tokenization of command strings

A *token* of a command string is a maximal run of non-space characters —
what the shell's word splitting produces for strings without quotes.
`strTokens` makes the phrase "the command contains a `-cdrom` token"
precise. -/

/-- Accumulator-style splitter on spaces; empty runs are dropped. -/
def tokenizeAux : List Char → List Char → List (List Char)
  | [], acc => if acc = [] then [] else [acc]
  | c :: cs, acc =>
    if c = ' ' then
      (if acc = [] then tokenizeAux cs [] else acc :: tokenizeAux cs [])
    else tokenizeAux cs (acc ++ [c])

/-- The space-separated tokens of a string. -/
def strTokens (s : String) : List String :=
  (tokenizeAux s.data []).map List.asString

/-- `noSpace s`: the string contains no space character. -/
def noSpace (s : String) : Bool :=
  s.data.all (fun c => !(c == ' '))

/-- The tokens contributed by the acceleration flag. -/
def accelTokens : AccelType → List String
  | .noAccel => []
  | .kvm => ["-enable-kvm"]
  | .whpx => ["-accel", "whpx"]
  | .hax => ["-accel", "hax"]
  | .other => []

/-! ## Concrete data for witnesses and counterexamples -/

/-- The end-to-end scenario VMSpec from the specification:
`{name: "debian-test", ramMegabytes: 2048, cpuCores: 2,
diskPath: "/vm/debian.qcow2", videoAdapter: "virtio",
bootOrder: disk-first}`. -/
def debianVM : VirtualMachine :=
  { name := "debian-test"
    disk := "/vm/debian.qcow2"
    iso := none
    cpus := 2
    ram := 2048
    os := "Linux"
    status := VMStatus.stopped
    auto_detected := false
    vga := some "virtio"
    boot_order := some "Disco duro (para arrancar SO)" }

/-- A VM configured to boot from optical media first
(`"CD/DVD primero (para instalar)"` in the boot-order combo box). -/
def installVM : VirtualMachine :=
  { name := "win-install"
    disk := "/vm/win.qcow2"
    iso := some "/iso/win.iso"
    cpus := 4
    ram := 4096
    os := "Windows"
    status := VMStatus.stopped
    auto_detected := false
    vga := some "qxl"
    boot_order := some "CD/DVD primero (para instalar)" }

/-- A stored record for a VM named `vmA`. -/
def recA : VMRecord :=
  { name := "vmA"
    disk := "/vm/a.qcow2"
    iso := none
    cpus := 2
    ram := 1024
    os := "Linux"
    status := VMStatus.stopped
    auto_detected := false }

/-- A metadata store containing only `vmA`. -/
def repoA : VMStore := [("vmA", recA)]

/-- A process handle whose OS process ignores `terminate()` past the
5-second window (`wait(timeout=5)` raises `TimeoutExpired`). -/
def stubbornProc : Proc :=
  { pid := 101, exited := false, terminates_in_time := false }

/-- A process handle whose OS process exits within the window. -/
def politeProc : Proc :=
  { pid := 102, exited := false, terminates_in_time := true }

/-- A handle whose OS process has already exited (a crashed or finished
VM): a non-blocking `poll()` would report the exit code. -/
def exitedProc : Proc :=
  { pid := 103, exited := true, terminates_in_time := true }

/-- Idle state: `vmA` configured, nothing running. -/
def stIdle : AppState :=
  { procs := [], running := [], repo := repoA }

/-- `vmA` running with a stubborn process. -/
def stStubborn : AppState :=
  { procs := [("vmA", stubbornProc)], running := [("vmA", true)], repo := repoA }

/-- `vmA` tracked as running, but its OS process has already exited. -/
def stExited : AppState :=
  { procs := [("vmA", exitedProc)], running := [("vmA", true)], repo := repoA }

/-- State with `vmA` running under a process that terminates within the
graceful window. -/
def stPolite : AppState :=
  { procs := [("vmA", politeProc)], running := [("vmA", true)], repo := repoA }

/-- The `VirtualMachine` that `vmrepo_find_by_name "vmA" repoA` rebuilds
from `recA` (extended attributes absent). -/
def vmALoaded : VirtualMachine :=
  { name := "vmA"
    disk := "/vm/a.qcow2"
    iso := none
    cpus := 2
    ram := 1024
    os := "Linux"
    status := VMStatus.stopped
    auto_detected := false
    vga := none
    boot_order := none }

/-- The invariant maintained by every reachable state: registry keys are
unique, every tracked process handle has a matching `running_vms` entry,
and the store is keyed by record name. -/
def AppInv (st : AppState) : Prop :=
  NodupKeys st.procs
  ∧ (∀ n, dMem n st.procs = true → dMem n st.running = true)
  ∧ StoreWF st.repo

/-- The record the save path persists for the shell-metacharacter name
`vm; rm -rf /`. -/
def injRec : VMRecord :=
  { name := "vm; rm -rf /"
    disk := "/vm/x.qcow2"
    iso := none
    cpus := 2
    ram := 1024
    os := "Linux"
    status := VMStatus.stopped
    auto_detected := false }

/-- The `VirtualMachine` that `save` followed by `find_by_name` returns
for `vm`: the eight dataclass fields survive, the dynamic `vga` and
`boot_order` attributes are gone. -/
def roundtripVM (vm : VirtualMachine) : VirtualMachine :=
  { name := vm.name
    disk := vm.disk
    iso := vm.iso
    cpus := vm.cpus
    ram := vm.ram
    os := vm.os
    status := vm.status
    auto_detected := vm.auto_detected
    vga := none
    boot_order := none }

/-- A VM whose *name* is the literal flag word `-cdrom` — a name that
`is_valid_vm_name` accepts (`-` is in `VALID_NAME_CHARS`) — configured
with a disk and no ISO. -/
def cdromVM : VirtualMachine :=
  { name := "-cdrom"
    disk := "/vm/c.qcow2"
    iso := none
    cpus := 2
    ram := 1024
    os := "Linux"
    status := VMStatus.stopped
    auto_detected := false
    vga := some "qxl"
    boot_order := some "Disco duro (para arrancar SO)" }

/-- Words joined by single spaces: the inverse image of tokenization for
space-free words. -/
def joinSpaced : List (List Char) → List Char
  | [] => []
  | [w] => w
  | w :: ws => w ++ (' ' :: joinSpaced ws)

/-! # Theorems -/

/-! ## Dictionary lemmas -/

theorem dGet_dSet_self {α : Type} (k : String) (v : α) (d : List (String × α)) :
    dGet (dSet k v d) k = some v := by
  induction d with
  | nil => simp [dGet, dSet]
  | cons kv d' ih =>
    obtain ⟨k', v'⟩ := kv
    by_cases h : k' = k
    · subst h
      simp [dGet, dSet]
    · simp [dGet, dSet, h, ih]

theorem dGet_dSet_ne {α : Type} (k k₂ : String) (v : α)
    (d : List (String × α)) (h : k ≠ k₂) :
    dGet (dSet k v d) k₂ = dGet d k₂ := by
  induction d with
  | nil => simp [dGet, dSet, h]
  | cons kv d' ih =>
    obtain ⟨k', v'⟩ := kv
    by_cases h1 : k' = k
    · subst h1
      simp [dGet, dSet, h]
    · simp only [dSet, if_neg h1, dGet]
      by_cases h2 : k' = k₂ <;> simp [h2, ih]

theorem dGet_dDel_self {α : Type} (k : String) (d : List (String × α)) :
    dGet (dDel k d) k = none := by
  induction d with
  | nil => rfl
  | cons kv d' ih =>
    obtain ⟨k', v'⟩ := kv
    by_cases h : k' = k
    · subst h
      simp only [dDel, List.filter_cons] at ih ⊢
      simpa using ih
    · simp only [dDel, List.filter_cons] at ih ⊢
      simpa [h, dGet] using ih

theorem dGet_dDel_ne {α : Type} (k k₂ : String) (d : List (String × α))
    (h : k ≠ k₂) :
    dGet (dDel k d) k₂ = dGet d k₂ := by
  induction d with
  | nil => rfl
  | cons kv d' ih =>
    obtain ⟨k', v'⟩ := kv
    by_cases h1 : k' = k
    · subst h1
      simp only [dDel, List.filter_cons] at ih ⊢
      simpa [dGet, h] using ih
    · by_cases h2 : k' = k₂
      · subst h2
        simp [dDel, List.filter_cons, dGet, h1]
      · simp only [dDel, List.filter_cons] at ih ⊢
        simpa [dGet, h1, h2] using ih

theorem dMem_dSet_self {α : Type} (k : String) (v : α) (d : List (String × α)) :
    dMem k (dSet k v d) = true := by
  simp [dMem, dGet_dSet_self]

theorem dMem_dSet {α : Type} (k k₂ : String) (v : α) (d : List (String × α)) :
    dMem k₂ (dSet k v d) = true ↔ (k₂ = k ∨ dMem k₂ d = true) := by
  by_cases h : k = k₂
  · subst h
    simp [dMem, dGet_dSet_self]
  · have h2 : ¬ k₂ = k := fun hh => h hh.symm
    simp [dMem, dGet_dSet_ne _ _ _ _ h, h2]

theorem dMem_dDel_self {α : Type} (k : String) (d : List (String × α)) :
    dMem k (dDel k d) = false := by
  simp [dMem, dGet_dDel_self]

theorem dMem_dDel {α : Type} (k k₂ : String) (d : List (String × α)) :
    dMem k₂ (dDel k d) = true ↔ (k₂ ≠ k ∧ dMem k₂ d = true) := by
  by_cases h : k = k₂
  · subst h
    simp [dMem, dGet_dDel_self]
  · have h2 : ¬ k₂ = k := fun hh => h hh.symm
    simp [dMem, dGet_dDel_ne _ _ _ h, h2]

theorem dMem_filter_key {α : Type} (f : String → Bool) (m : String)
    (d : List (String × α)) :
    dMem m (d.filter (fun kv => f kv.1)) = (f m && dMem m d) := by
  induction d with
  | nil => simp [dMem, dGet]
  | cons kv d' ih =>
    obtain ⟨k, v⟩ := kv
    by_cases hk : k = m
    · subst hk
      by_cases hf : f k = true
      · simp [List.filter, hf, dMem, dGet]
      · have hf' : f k = false := by
          cases hfk : f k
          · rfl
          · exact absurd hfk hf
        simp [List.filter, hf', dMem, dGet] at ih ⊢
        simp [ih]
    · by_cases hf : f k = true
      · simp [List.filter, hf, dMem, dGet, hk] at ih ⊢
        exact ih
      · have hf' : f k = false := by
          cases hfk : f k
          · rfl
          · exact absurd hfk hf
        simp [List.filter, hf', dMem, dGet, hk] at ih ⊢
        exact ih

theorem mem_keys_dSet {α : Type} (k m : String) (v : α)
    (d : List (String × α)) :
    m ∈ (dSet k v d).map Prod.fst ↔ (m = k ∨ m ∈ d.map Prod.fst) := by
  induction d with
  | nil => simp [dSet]
  | cons kv d' ih =>
    obtain ⟨k', v'⟩ := kv
    by_cases h : k' = k
    · subst h
      simp [dSet]
    · simp [dSet, h, ih]
      tauto

theorem nodupKeys_dSet {α : Type} (k : String) (v : α)
    (d : List (String × α)) (h : NodupKeys d) : NodupKeys (dSet k v d) := by
  induction d with
  | nil => simp [NodupKeys, dSet]
  | cons kv d' ih =>
    obtain ⟨k', v'⟩ := kv
    by_cases h1 : k' = k
    · subst h1
      have hkeys : (dSet k' v ((k', v') :: d')).map Prod.fst
          = ((k', v') :: d').map Prod.fst := by
        simp [dSet]
      rw [NodupKeys, hkeys]
      exact h
    · have hkeys : (dSet k v ((k', v') :: d')).map Prod.fst
          = k' :: (dSet k v d').map Prod.fst := by
        simp [dSet, h1]
      rw [NodupKeys, hkeys, List.nodup_cons]
      rw [NodupKeys, List.map_cons, List.nodup_cons] at h
      obtain ⟨hnotmem, hnodup⟩ := h
      refine ⟨?_, ih hnodup⟩
      intro hmem
      rcases (mem_keys_dSet k k' v d').mp hmem with h2 | h2
      · exact h1 h2
      · exact hnotmem h2

theorem nodupKeys_filter {α : Type} (p : String × α → Bool)
    (d : List (String × α)) (h : NodupKeys d) : NodupKeys (d.filter p) := by
  have hsub : ((d.filter p).map Prod.fst).Sublist (d.map Prod.fst) :=
    List.Sublist.map Prod.fst (List.filter_sublist d)
  exact List.Nodup.sublist hsub h

theorem nodupKeys_dDel {α : Type} (k : String) (d : List (String × α))
    (h : NodupKeys d) : NodupKeys (dDel k d) :=
  nodupKeys_filter _ d h

/-! ## Effect lemmas for the lifecycle handlers -/

theorem find_by_name_wf (repo : VMStore) (n : String) (vm : VirtualMachine)
    (hwf : StoreWF repo) (h : vmrepo_find_by_name n repo = some vm) :
    vm.name = n := by
  unfold vmrepo_find_by_name at h
  cases hg : dGet repo n with
  | none => rw [hg] at h; simp at h
  | some data =>
    rw [hg] at h
    injection h with h2
    rw [← h2]
    exact hwf n data hg

theorem ui_start_vm_notFound (spawn : Option Proc) (n : String) (st : AppState)
    (h : vmrepo_find_by_name n st.repo = none) :
    ui_start_vm spawn n st = (.notFound, st) := by
  simp [ui_start_vm, h]

theorem ui_start_vm_already (spawn : Option Proc) (n : String) (st : AppState)
    (vm : VirtualMachine) (hvm : vmrepo_find_by_name n st.repo = some vm)
    (hrun : dMem n st.running = true) :
    ui_start_vm spawn n st = (.alreadyRunning, st) := by
  simp [ui_start_vm, hvm, hrun]

theorem ui_start_vm_spawnFail (n : String) (st : AppState)
    (vm : VirtualMachine) (hvm : vmrepo_find_by_name n st.repo = some vm)
    (hrun : dMem n st.running = false) :
    ui_start_vm none n st = (.startFailed, st) := by
  simp [ui_start_vm, hvm, hrun, exec_start_vm]

theorem ui_start_vm_success (p : Proc) (n : String) (st : AppState)
    (vm : VirtualMachine) (hvm : vmrepo_find_by_name n st.repo = some vm)
    (hrun : dMem n st.running = false) :
    ui_start_vm (some p) n st
      = (.started, { st with procs := dSet vm.name p st.procs,
                             running := dSet n true st.running }) := by
  simp [ui_start_vm, hvm, hrun, exec_start_vm]

theorem ui_stop_vm_notRunning (n : String) (st : AppState)
    (h : dMem n st.running = false) :
    ui_stop_vm n st = (.notRunning, st) := by
  simp [ui_stop_vm, h]

theorem ui_stop_vm_noProc (n : String) (st : AppState)
    (hrun : dMem n st.running = true) (hp : dGet st.procs n = none) :
    ui_stop_vm n st = (.stopFailed, st) := by
  simp [ui_stop_vm, hrun, exec_stop_vm, hp]

theorem ui_stop_vm_timeout (n : String) (st : AppState) (p : Proc)
    (hrun : dMem n st.running = true) (hp : dGet st.procs n = some p)
    (ht : p.terminates_in_time = false) :
    ui_stop_vm n st = (.stopFailed, st) := by
  simp [ui_stop_vm, hrun, exec_stop_vm, hp, ht]

theorem ui_stop_vm_ok (n : String) (st : AppState) (p : Proc)
    (hrun : dMem n st.running = true) (hp : dGet st.procs n = some p)
    (ht : p.terminates_in_time = true) :
    ui_stop_vm n st
      = (.stopped, { st with procs := dDel n st.procs,
                             running := dDel n st.running }) := by
  simp [ui_stop_vm, hrun, exec_stop_vm, hp, ht]

theorem ui_restart_vm_notRunning (spawn : Option Proc) (n : String)
    (st : AppState) (h : dMem n st.running = false) :
    ui_restart_vm spawn n st = (.notRunningWarned, st) := by
  simp [ui_restart_vm, h]

theorem ui_restart_vm_ok (p p2 : Proc) (n : String) (st : AppState)
    (vm : VirtualMachine)
    (hrun : dMem n st.running = true) (hp : dGet st.procs n = some p)
    (ht : p.terminates_in_time = true)
    (hvm : vmrepo_find_by_name n st.repo = some vm) :
    ui_restart_vm (some p2) n st
      = (.restarted, { st with procs := dSet vm.name p2 (dDel n st.procs),
                               running := dSet n true (dDel n st.running) }) := by
  simp [ui_restart_vm, hrun, exec_stop_vm, hp, ht, hvm, exec_start_vm]

/-! ## The registry invariant over all reachable states -/

theorem storeWF_save (vm : VirtualMachine) (store : VMStore)
    (hwf : StoreWF store) : StoreWF (vmrepo_save vm store) := by
  intro k r h
  unfold vmrepo_save at h
  by_cases hk : k = vm.name
  · subst hk
    rw [dGet_dSet_self] at h
    injection h with h2
    rw [← h2]
  · rw [dGet_dSet_ne vm.name k _ store (fun hh => hk hh.symm)] at h
    exact hwf k r h

theorem storeWF_delete (n : String) (store : VMStore)
    (hwf : StoreWF store) : StoreWF (vmrepo_delete n store) := by
  intro k r h
  unfold vmrepo_delete at h
  by_cases hk : k = n
  · subst hk
    rw [dGet_dDel_self] at h
    cases h
  · rw [dGet_dDel_ne n k store (fun hh => hk hh.symm)] at h
    exact hwf k r h

theorem reach_app_inv (st : AppState) (h : Reach st) : AppInv st := by
  induction h with
  | boot running0 repo0 hwf =>
    refine ⟨by simp [NodupKeys], ?_, hwf⟩
    intro n hn
    simp [dMem, dGet] at hn
  | start spawn n st hst ih =>
    obtain ⟨hnodup, hsi, hwf⟩ := ih
    cases hfind : vmrepo_find_by_name n st.repo with
    | none =>
      rw [ui_start_vm_notFound spawn n st hfind]
      exact ⟨hnodup, hsi, hwf⟩
    | some vm =>
      cases hrun : dMem n st.running with
      | true =>
        rw [ui_start_vm_already spawn n st vm hfind hrun]
        exact ⟨hnodup, hsi, hwf⟩
      | false =>
        cases spawn with
        | none =>
          rw [ui_start_vm_spawnFail n st vm hfind hrun]
          exact ⟨hnodup, hsi, hwf⟩
        | some p =>
          rw [ui_start_vm_success p n st vm hfind hrun]
          have hname := find_by_name_wf st.repo n vm hwf hfind
          refine ⟨nodupKeys_dSet _ _ _ hnodup, ?_, hwf⟩
          intro m hm
          rcases (dMem_dSet vm.name m p st.procs).mp hm with h1 | h1
          · rw [h1, hname]
            exact dMem_dSet_self n true st.running
          · exact (dMem_dSet n m true st.running).mpr (Or.inr (hsi m h1))
  | stop n st hst ih =>
    obtain ⟨hnodup, hsi, hwf⟩ := ih
    cases hrun : dMem n st.running with
    | false =>
      rw [ui_stop_vm_notRunning n st hrun]
      exact ⟨hnodup, hsi, hwf⟩
    | true =>
      cases hp : dGet st.procs n with
      | none =>
        rw [ui_stop_vm_noProc n st hrun hp]
        exact ⟨hnodup, hsi, hwf⟩
      | some p =>
        cases ht : p.terminates_in_time with
        | false =>
          rw [ui_stop_vm_timeout n st p hrun hp ht]
          exact ⟨hnodup, hsi, hwf⟩
        | true =>
          rw [ui_stop_vm_ok n st p hrun hp ht]
          refine ⟨nodupKeys_dDel _ _ hnodup, ?_, hwf⟩
          intro m hm
          rcases (dMem_dDel n m st.procs).mp hm with ⟨hne, hmem⟩
          exact (dMem_dDel n m st.running).mpr ⟨hne, hsi m hmem⟩
  | restart spawn n st hst ih =>
    obtain ⟨hnodup, hsi, hwf⟩ := ih
    cases hrun : dMem n st.running with
    | false =>
      rw [ui_restart_vm_notRunning spawn n st hrun]
      exact ⟨hnodup, hsi, hwf⟩
    | true =>
      have hdel : ∀ m, dMem m (dDel n st.procs) = true →
          dMem m (dDel n st.running) = true := by
        intro m hm
        rcases (dMem_dDel n m st.procs).mp hm with ⟨hne, hmem⟩
        exact (dMem_dDel n m st.running).mpr ⟨hne, hsi m hmem⟩
      cases hp : dGet st.procs n with
      | none =>
        have heq : ui_restart_vm spawn n st = (.stopFailedError, st) := by
          simp [ui_restart_vm, hrun, exec_stop_vm, hp]
        rw [heq]
        exact ⟨hnodup, hsi, hwf⟩
      | some p =>
        cases ht : p.terminates_in_time with
        | false =>
          have heq : ui_restart_vm spawn n st = (.stopFailedError, st) := by
            simp [ui_restart_vm, hrun, exec_stop_vm, hp, ht]
          rw [heq]
          exact ⟨hnodup, hsi, hwf⟩
        | true =>
          cases hfind : vmrepo_find_by_name n st.repo with
          | none =>
            have heq : ui_restart_vm spawn n st
                = (.restartFailed,
                   { st with procs := dDel n st.procs,
                             running := dDel n st.running }) := by
              simp [ui_restart_vm, hrun, exec_stop_vm, hp, ht, hfind]
            rw [heq]
            exact ⟨nodupKeys_dDel _ _ hnodup, hdel, hwf⟩
          | some vm =>
            have hname := find_by_name_wf st.repo n vm hwf hfind
            cases spawn with
            | none =>
              have heq : ui_restart_vm none n st
                  = (.restartFailed,
                     { st with procs := dDel n st.procs,
                               running := dDel n st.running }) := by
                simp [ui_restart_vm, hrun, exec_stop_vm, hp, ht, hfind,
                  exec_start_vm]
              rw [heq]
              exact ⟨nodupKeys_dDel _ _ hnodup, hdel, hwf⟩
            | some p2 =>
              rw [ui_restart_vm_ok p p2 n st vm hrun hp ht hfind]
              refine ⟨nodupKeys_dSet _ _ _ (nodupKeys_dDel _ _ hnodup), ?_, hwf⟩
              intro m hm
              rcases (dMem_dSet vm.name m p2 (dDel n st.procs)).mp hm with h1 | h1
              · rw [h1, hname]
                exact dMem_dSet_self n true (dDel n st.running)
              · rcases (dMem_dDel n m st.procs).mp h1 with ⟨hne, hmem⟩
                exact (dMem_dSet n m true (dDel n st.running)).mpr
                  (Or.inr ((dMem_dDel n m st.running).mpr ⟨hne, hsi m hmem⟩))
  | shutdown confirm n st hst ih =>
    obtain ⟨hnodup, hsi, hwf⟩ := ih
    cases hrun : dMem n st.running with
    | false =>
      have heq : ui_shutdown_vm confirm n st = (.notRunning, st) := by
        simp [ui_shutdown_vm, hrun]
      rw [heq]
      exact ⟨hnodup, hsi, hwf⟩
    | true =>
      cases confirm with
      | false =>
        have heq : ui_shutdown_vm false n st = (.notRunning, st) := by
          simp [ui_shutdown_vm, hrun]
        rw [heq]
        exact ⟨hnodup, hsi, hwf⟩
      | true =>
        cases hp : dGet st.procs n with
        | none =>
          have heq : ui_shutdown_vm true n st = (.stopFailed, st) := by
            simp [ui_shutdown_vm, hrun, exec_stop_vm, hp]
          rw [heq]
          exact ⟨hnodup, hsi, hwf⟩
        | some p =>
          cases ht : p.terminates_in_time with
          | false =>
            have heq : ui_shutdown_vm true n st = (.stopFailed, st) := by
              simp [ui_shutdown_vm, hrun, exec_stop_vm, hp, ht]
            rw [heq]
            exact ⟨hnodup, hsi, hwf⟩
          | true =>
            have heq : ui_shutdown_vm true n st
                = (.stopped, { st with procs := dDel n st.procs,
                                       running := dDel n st.running }) := by
              simp [ui_shutdown_vm, hrun, exec_stop_vm, hp, ht]
            rw [heq]
            refine ⟨nodupKeys_dDel _ _ hnodup, ?_, hwf⟩
            intro m hm
            rcases (dMem_dDel n m st.procs).mp hm with ⟨hne, hmem⟩
            exact (dMem_dDel n m st.running).mpr ⟨hne, hsi m hmem⟩
  | tick st hst ih =>
    obtain ⟨hnodup, hsi, hwf⟩ := ih
    refine ⟨hnodup, ?_, hwf⟩
    intro m hm
    have hm' : dMem m st.procs = true := hm
    have := hsi m hm'
    show dMem m (st.running.filter (fun kv => dMem kv.1 st.procs)) = true
    rw [dMem_filter_key (fun k => dMem k st.procs) m st.running]
    simp [hm', this]
  | closeStop n st hst ih =>
    obtain ⟨hnodup, hsi, hwf⟩ := ih
    cases hp : dGet st.procs n with
    | none =>
      have heq : close_stop n st = st := by
        simp [close_stop, exec_stop_vm, hp]
      rw [heq]
      exact ⟨hnodup, hsi, hwf⟩
    | some p =>
      cases ht : p.terminates_in_time with
      | false =>
        have heq : close_stop n st = st := by
          simp [close_stop, exec_stop_vm, hp, ht]
        rw [heq]
        exact ⟨hnodup, hsi, hwf⟩
      | true =>
        have heq : close_stop n st = { st with procs := dDel n st.procs } := by
          simp [close_stop, exec_stop_vm, hp, ht]
        rw [heq]
        refine ⟨nodupKeys_dDel _ _ hnodup, ?_, hwf⟩
        intro m hm
        rcases (dMem_dDel n m st.procs).mp hm with ⟨hne, hmem⟩
        exact hsi m hmem
  | saveVm vm st hst ih =>
    obtain ⟨hnodup, hsi, hwf⟩ := ih
    exact ⟨hnodup, hsi, storeWF_save vm st.repo hwf⟩
  | deleteVm n st hst ih =>
    obtain ⟨hnodup, hsi, hwf⟩ := ih
    exact ⟨hnodup, hsi, storeWF_delete n st.repo hwf⟩

theorem storeWF_repoA : StoreWF repoA := by
  intro k r h
  simp only [repoA, dGet] at h
  by_cases hk : ("vmA" : String) = k
  · rw [if_pos hk] at h
    injection h with h2
    rw [← h2, ← hk]
    rfl
  · rw [if_neg hk] at h
    cases h

/-! ## Lifecycle claims -/

/-- C1: registering a process handle under a name already present in the
running-process registry fails with the already-running rejection and
leaves the existing entry unchanged; in every reachable state the
registry holds at most one live handle per VM name (its keys are
pairwise distinct), and every tracked handle is matched by a
`running_vms` entry, so the guard in `start_vm` protects every handle.
Concretely, `register(n, h1)` through a successful start installs `h1`;
a second start of `n` before any unregister returns the already-running
rejection, spawns nothing, changes no state and keeps `h1`. -/
theorem C1_registry_invariant :
    (∀ st : AppState, Reach st →
      NodupKeys st.procs
      ∧ ∀ n, dMem n st.procs = true → dMem n st.running = true)
    ∧ (∀ (st : AppState) (n : String) (vm : VirtualMachine) (p1 p2 : Proc),
        StoreWF st.repo →
        vmrepo_find_by_name n st.repo = some vm →
        dMem n st.running = false →
        (ui_start_vm (some p1) n st).1 = .started
        ∧ dGet (ui_start_vm (some p1) n st).2.procs n = some p1
        ∧ ui_start_vm (some p2) n (ui_start_vm (some p1) n st).2
            = (.alreadyRunning, (ui_start_vm (some p1) n st).2)) := by
  constructor
  · intro st h
    obtain ⟨h1, h2, _⟩ := reach_app_inv st h
    exact ⟨h1, h2⟩
  · intro st n vm p1 p2 hwf hvm hrun
    have hname := find_by_name_wf st.repo n vm hwf hvm
    rw [ui_start_vm_success p1 n st vm hvm hrun]
    refine ⟨rfl, ?_, ?_⟩
    · show dGet (dSet vm.name p1 st.procs) n = some p1
      rw [hname]
      exact dGet_dSet_self n p1 st.procs
    · exact ui_start_vm_already (some p2) n _ vm hvm
        (dMem_dSet_self n true st.running)

/-- C1 witness: the invariant at a freshly booted state, and the
register/re-register scenario run at `vmA` from the idle state. -/
theorem C1_registry_invariant_witness :
    (NodupKeys stIdle.procs
      ∧ ∀ n, dMem n stIdle.procs = true → dMem n stIdle.running = true)
    ∧ ((ui_start_vm (some politeProc) "vmA" stIdle).1 = .started
      ∧ dGet (ui_start_vm (some politeProc) "vmA" stIdle).2.procs "vmA"
          = some politeProc
      ∧ ui_start_vm (some stubbornProc) "vmA"
            (ui_start_vm (some politeProc) "vmA" stIdle).2
          = (.alreadyRunning, (ui_start_vm (some politeProc) "vmA" stIdle).2)) := by
  constructor
  · exact C1_registry_invariant.1 stIdle (Reach.boot [] repoA storeWF_repoA)
  · exact C1_registry_invariant.2 stIdle "vmA" vmALoaded politeProc stubbornProc
      storeWF_repoA (by decide) (by decide)

/-- C2 counterexample: with `vmA` tracked under a process that does not
exit within the 5-second window, `stop_vm` reports failure, the name is
still in the registry and still reported running — the claimed
"unregisters unconditionally after escalating to a kill" behavior does
not exist in the code. -/
theorem C2_stop_counterexample :
    (ui_stop_vm "vmA" stStubborn).1 = .stopFailed
    ∧ is_running "vmA" (ui_stop_vm "vmA" stStubborn).2 = true
    ∧ dGet (ui_stop_vm "vmA" stStubborn).2.procs "vmA" = some stubbornProc := by
  decide

/-- C2 amended: for a tracked, running VM, `stop(name)` unregisters from
both maps and reports success exactly when the underlying process exits
within the 5-second graceful-termination window; when the timeout
elapses, no forced kill is issued, the stop reports failure and the name
remains registered and reported running. -/
theorem C2_stop_behavior (st : AppState) (n : String) (p : Proc)
    (hrun : dMem n st.running = true) (hp : dGet st.procs n = some p) :
    (p.terminates_in_time = true →
      ui_stop_vm n st
        = (.stopped, { st with procs := dDel n st.procs,
                               running := dDel n st.running })
      ∧ is_running n (ui_stop_vm n st).2 = false)
    ∧ (p.terminates_in_time = false →
      ui_stop_vm n st = (.stopFailed, st)
      ∧ is_running n (ui_stop_vm n st).2 = true) := by
  constructor
  · intro ht
    have heq := ui_stop_vm_ok n st p hrun hp ht
    refine ⟨heq, ?_⟩
    rw [heq]
    show dMem n (dDel n st.running) = false
    exact dMem_dDel_self n st.running
  · intro ht
    have heq := ui_stop_vm_timeout n st p hrun hp ht
    refine ⟨heq, ?_⟩
    rw [heq]
    exact hrun

/-- C2 witness: both halves of the amended statement evaluated on
concrete states (`vmA` with a cooperative process, then with a stubborn
one). -/
theorem C2_stop_behavior_witness :
    (ui_stop_vm "vmA" stPolite
        = (.stopped, { stPolite with procs := dDel "vmA" stPolite.procs,
                                     running := dDel "vmA" stPolite.running })
      ∧ is_running "vmA" (ui_stop_vm "vmA" stPolite).2 = false)
    ∧ (ui_stop_vm "vmA" stStubborn = (.stopFailed, stStubborn)
      ∧ is_running "vmA" (ui_stop_vm "vmA" stStubborn).2 = true) := by
  constructor
  · exact (C2_stop_behavior stPolite "vmA" politeProc (by decide) (by decide)).1 rfl
  · exact (C2_stop_behavior stStubborn "vmA" stubbornProc
      (by decide) (by decide)).2 rfl

/-- C3: the periodic tick performs no exit-status check.  In the state
`stExited` the OS process behind `vmA` has already exited
(`exitedProc.exited = true`, which is what a non-blocking `poll()` would
report), yet `update_vm_status` — which only tests membership of the
name in `running_processes`, where a `Popen` object is always truthy —
leaves the state unchanged and still reports `vmA` as running. -/
theorem C3_tick_misses_dead_process :
    exitedProc.exited = true
    ∧ update_vm_status stExited = stExited
    ∧ is_running "vmA" (update_vm_status stExited) = true := by
  decide

/-- C8 counterexample: `vmA` is configured (present in the store) but not
running; a spawn would succeed, yet `restart_vm` only warns and starts
nothing — it does not degrade to a plain start. -/
theorem C8_restart_counterexample :
    is_running "vmA" stIdle = false
    ∧ vmrepo_find_by_name "vmA" stIdle.repo = some vmALoaded
    ∧ ui_restart_vm (some politeProc) "vmA" stIdle = (.notRunningWarned, stIdle)
    ∧ (ui_restart_vm (some politeProc) "vmA" stIdle).2.procs = [] := by
  decide

/-- C8 amended: for a running VM whose process stops within the window,
`restart(name)` composes stop then start (with a 1-second settling sleep
between them) and re-registers the VM; when the VM is not running,
`restart` only shows a warning and performs no operation at all — in
particular it does not fall back to a plain start. -/
theorem C8_restart_behavior (spawn : Option Proc) (st : AppState)
    (n : String) (vm : VirtualMachine) (p p2 : Proc)
    (hrun : dMem n st.running = true) (hp : dGet st.procs n = some p)
    (ht : p.terminates_in_time = true)
    (hvm : vmrepo_find_by_name n st.repo = some vm) :
    (∀ st2 : AppState, dMem n st2.running = false →
      ui_restart_vm spawn n st2 = (.notRunningWarned, st2))
    ∧ ui_restart_vm (some p2) n st
        = (.restarted, { st with procs := dSet vm.name p2 (dDel n st.procs),
                                 running := dSet n true (dDel n st.running) })
    ∧ is_running n (ui_restart_vm (some p2) n st).2 = true := by
  refine ⟨?_, ?_, ?_⟩
  · intro st2 h2
    exact ui_restart_vm_notRunning spawn n st2 h2
  · exact ui_restart_vm_ok p p2 n st vm hrun hp ht hvm
  · rw [ui_restart_vm_ok p p2 n st vm hrun hp ht hvm]
    show dMem n (dSet n true (dDel n st.running)) = true
    exact dMem_dSet_self n true (dDel n st.running)

/-- C8 witness: the amended statement run at `vmA` (running with a
cooperative process; the not-running half evaluated at the idle state). -/
theorem C8_restart_behavior_witness :
    (ui_restart_vm (some politeProc) "vmA" stIdle
        = (.notRunningWarned, stIdle))
    ∧ ui_restart_vm (some politeProc) "vmA" stPolite
        = (.restarted,
           { stPolite with
               procs := dSet "vmA" politeProc (dDel "vmA" stPolite.procs),
               running := dSet "vmA" true (dDel "vmA" stPolite.running) })
    ∧ is_running "vmA" (ui_restart_vm (some politeProc) "vmA" stPolite).2
        = true := by
  have h := C8_restart_behavior (some politeProc) stPolite "vmA" vmALoaded
    politeProc politeProc (by decide) (by decide) (by decide) (by decide)
  exact ⟨h.1 stIdle (by decide), h.2.1, h.2.2⟩

/-- C9: when no VMSpec for `n` exists in the metadata store, `start_vm`
fails with the not-found rejection, consults no spawn, and returns the
state completely unchanged (no registry entry added, removed or
modified). -/
theorem C9_start_not_found (spawn : Option Proc) (n : String) (st : AppState)
    (h : dGet st.repo n = none) :
    ui_start_vm spawn n st = (.notFound, st) := by
  apply ui_start_vm_notFound
  unfold vmrepo_find_by_name
  rw [h]

/-- C9 witness: starting the unknown name `ghost` from the idle state. -/
theorem C9_start_not_found_witness :
    ui_start_vm (some politeProc) "ghost" stIdle = (.notFound, stIdle) :=
  C9_start_not_found (some politeProc) "ghost" stIdle (by decide)

/-- C6: with a VMSpec present and the VM not yet running, a first
`start(n)` succeeds; an immediately following `start(n)` yields the
already-running rejection and changes no state; and the interleaving
start–stop–start (with the process exiting within the stop window)
succeeds on both starts. -/
theorem C6_double_start_then_stop_start
    (st : AppState) (n : String) (vm : VirtualMachine) (p1 p2 : Proc)
    (spawn2 : Option Proc)
    (hwf : StoreWF st.repo)
    (hvm : vmrepo_find_by_name n st.repo = some vm)
    (hrun : dMem n st.running = false)
    (ht : p1.terminates_in_time = true) :
    (ui_start_vm (some p1) n st).1 = .started
    ∧ (ui_start_vm spawn2 n (ui_start_vm (some p1) n st).2).1 = .alreadyRunning
    ∧ (ui_start_vm spawn2 n (ui_start_vm (some p1) n st).2).2
        = (ui_start_vm (some p1) n st).2
    ∧ (ui_stop_vm n (ui_start_vm (some p1) n st).2).1 = .stopped
    ∧ (ui_start_vm (some p2) n
        (ui_stop_vm n (ui_start_vm (some p1) n st).2).2).1 = .started := by
  have hname := find_by_name_wf st.repo n vm hwf hvm
  rw [ui_start_vm_success p1 n st vm hvm hrun]
  have hrun1 : dMem n (dSet n true st.running) = true :=
    dMem_dSet_self n true st.running
  have hp1 : dGet (dSet vm.name p1 st.procs) n = some p1 := by
    rw [hname]
    exact dGet_dSet_self n p1 st.procs
  have hsecond := ui_start_vm_already spawn2 n
    { st with procs := dSet vm.name p1 st.procs,
              running := dSet n true st.running } vm hvm hrun1
  have hstop := ui_stop_vm_ok n
    { st with procs := dSet vm.name p1 st.procs,
              running := dSet n true st.running } p1 hrun1 hp1 ht
  refine ⟨rfl, ?_, ?_, ?_, ?_⟩
  · rw [hsecond]
  · rw [hsecond]
  · rw [hstop]
  · rw [hstop]
    have hrun2 : dMem n (dDel n (dSet n true st.running)) = false :=
      dMem_dDel_self n (dSet n true st.running)
    have hthird := ui_start_vm_success p2 n
      { procs := dDel n (dSet vm.name p1 st.procs)
        running := dDel n (dSet n true st.running)
        repo := st.repo } vm hvm hrun2
    exact congrArg Prod.fst hthird

/-- C6 witness: the scenario run at `vmA` from the idle state with
cooperative processes. -/
theorem C6_double_start_then_stop_start_witness :
    (ui_start_vm (some politeProc) "vmA" stIdle).1 = .started
    ∧ (ui_start_vm (some stubbornProc) "vmA"
        (ui_start_vm (some politeProc) "vmA" stIdle).2).1 = .alreadyRunning
    ∧ (ui_start_vm (some stubbornProc) "vmA"
        (ui_start_vm (some politeProc) "vmA" stIdle).2).2
        = (ui_start_vm (some politeProc) "vmA" stIdle).2
    ∧ (ui_stop_vm "vmA" (ui_start_vm (some politeProc) "vmA" stIdle).2).1
        = .stopped
    ∧ (ui_start_vm (some politeProc) "vmA"
        (ui_stop_vm "vmA"
          (ui_start_vm (some politeProc) "vmA" stIdle).2).2).1 = .started :=
  C6_double_start_then_stop_start stIdle "vmA" vmALoaded politeProc politeProc
    (some stubbornProc) storeWF_repoA (by decide) (by decide) (by decide)

/-! ## Positive substring occurrences -/

theorem hasPre_append_self (p t : List Char) : hasPre p (p ++ t) = true := by
  induction p with
  | nil => rfl
  | cons c p ih => simp [hasPre, ih]

theorem hasSub_of_hasPre (p s : List Char) (h : hasPre p s = true) :
    hasSub p s = true := by
  cases s with
  | nil => simpa [hasSub] using h
  | cons d s' => simp [hasSub, h]

theorem hasSub_append (A p B : List Char) : hasSub p (A ++ (p ++ B)) = true := by
  induction A with
  | nil => exact hasSub_of_hasPre p (p ++ B) (hasPre_append_self p B)
  | cons a A ih => simp [hasSub, ih]

theorem containsStr_of_split (pat s pre post : String)
    (h : s = pre ++ (pat ++ post)) : containsStr pat s = true := by
  unfold containsStr
  rw [h]
  rw [String.data_append, String.data_append]
  exact hasSub_append pre.data pat.data post.data

/-! ## Builder helper lemmas shared between claims -/

set_option maxRecDepth 8192 in
theorem boot_flag_cd (accel : AccelType) (vm : VirtualMachine)
    (video : Option VideoConfig) (audio : Option AudioConfig)
    (usb : Option USBConfig)
    (h : containsStr "Disco duro" (bootOrderOf vm) = true) :
    containsStr " -boot order=cd,menu=on,splash-time=5000 -usb"
      (build_command accel vm video audio usb) = true := by
  apply containsStr_of_split _ _
    ("qemu-system-x86_64"
      ++ (" -name " ++ vm.name)
      ++ (" -m " ++ toString vm.ram)
      ++ (" -smp cores=" ++ toString vm.cpus)
      ++ (match vm.iso with
          | none => ""
          | some i => if i = "" then "" else " -cdrom " ++ quote_path i)
      ++ (if vm.disk = "" then "" else " -hda " ++ quote_path vm.disk))
    (" -device usb-kbd"
      ++ " -device usb-mouse"
      ++ (" -vga " ++ vgaOf vm)
      ++ " -display gtk,grab-on-hover=on"
      ++ (match video with
          | none => ""
          | some v =>
            (if v.gl_acceleration then " -enable-kvm" else "")
            ++ (if v.virgl then " -device virtio-gpu-gl" else ""))
      ++ (match audio with
          | none => ""
          | some a =>
            if a.enabled then
              (" -audiodev " ++ a.driver ++ ",id=audio0")
              ++ (" -device " ++ a.model ++ ",audiodev=audio0")
            else "")
      ++ " -net nic,model=virtio"
      ++ " -net user"
      ++ (match usb with
          | none => ""
          | some u => " -device usb-ehci,id=ehci" ++ usbPortFlags u.ports)
      ++ get_acceleration_flag accel
      ++ " &")
  rw [show (" -boot order=cd,menu=on,splash-time=5000 -usb" : String)
      = " -boot order=cd,menu=on,splash-time=5000" ++ " -usb" from by decide]
  unfold build_command
  rw [h]
  apply String.ext
  simp [String.data_append, List.append_assoc]

set_option maxRecDepth 8192 in
theorem boot_flag_dc (accel : AccelType) (vm : VirtualMachine)
    (video : Option VideoConfig) (audio : Option AudioConfig)
    (usb : Option USBConfig)
    (h : containsStr "Disco duro" (bootOrderOf vm) = false) :
    containsStr " -boot order=dc,menu=on,splash-time=5000 -usb"
      (build_command accel vm video audio usb) = true := by
  apply containsStr_of_split _ _
    ("qemu-system-x86_64"
      ++ (" -name " ++ vm.name)
      ++ (" -m " ++ toString vm.ram)
      ++ (" -smp cores=" ++ toString vm.cpus)
      ++ (match vm.iso with
          | none => ""
          | some i => if i = "" then "" else " -cdrom " ++ quote_path i)
      ++ (if vm.disk = "" then "" else " -hda " ++ quote_path vm.disk))
    (" -device usb-kbd"
      ++ " -device usb-mouse"
      ++ (" -vga " ++ vgaOf vm)
      ++ " -display gtk,grab-on-hover=on"
      ++ (match video with
          | none => ""
          | some v =>
            (if v.gl_acceleration then " -enable-kvm" else "")
            ++ (if v.virgl then " -device virtio-gpu-gl" else ""))
      ++ (match audio with
          | none => ""
          | some a =>
            if a.enabled then
              (" -audiodev " ++ a.driver ++ ",id=audio0")
              ++ (" -device " ++ a.model ++ ",audiodev=audio0")
            else "")
      ++ " -net nic,model=virtio"
      ++ " -net user"
      ++ (match usb with
          | none => ""
          | some u => " -device usb-ehci,id=ehci" ++ usbPortFlags u.ports)
      ++ get_acceleration_flag accel
      ++ " &")
  rw [show (" -boot order=dc,menu=on,splash-time=5000 -usb" : String)
      = " -boot order=dc,menu=on,splash-time=5000" ++ " -usb" from by decide]
  unfold build_command
  rw [h]
  apply String.ext
  simp [String.data_append, List.append_assoc]

set_option maxRecDepth 8192 in
theorem vga_flag_infix (accel : AccelType) (vm : VirtualMachine)
    (video : Option VideoConfig) (audio : Option AudioConfig)
    (usb : Option USBConfig) :
    containsStr (" -vga " ++ vgaOf vm ++ " -display gtk,grab-on-hover=on")
      (build_command accel vm video audio usb) = true := by
  apply containsStr_of_split _ _
    ("qemu-system-x86_64"
      ++ (" -name " ++ vm.name)
      ++ (" -m " ++ toString vm.ram)
      ++ (" -smp cores=" ++ toString vm.cpus)
      ++ (match vm.iso with
          | none => ""
          | some i => if i = "" then "" else " -cdrom " ++ quote_path i)
      ++ (if vm.disk = "" then "" else " -hda " ++ quote_path vm.disk)
      ++ (if containsStr "Disco duro" (bootOrderOf vm) then
            " -boot order=cd,menu=on,splash-time=5000"
          else
            " -boot order=dc,menu=on,splash-time=5000")
      ++ " -usb"
      ++ " -device usb-kbd"
      ++ " -device usb-mouse")
    ((match video with
          | none => ""
          | some v =>
            (if v.gl_acceleration then " -enable-kvm" else "")
            ++ (if v.virgl then " -device virtio-gpu-gl" else ""))
      ++ (match audio with
          | none => ""
          | some a =>
            if a.enabled then
              (" -audiodev " ++ a.driver ++ ",id=audio0")
              ++ (" -device " ++ a.model ++ ",audiodev=audio0")
            else "")
      ++ " -net nic,model=virtio"
      ++ " -net user"
      ++ (match usb with
          | none => ""
          | some u => " -device usb-ehci,id=ehci" ++ usbPortFlags u.ports)
      ++ get_acceleration_flag accel
      ++ " &")
  unfold build_command
  apply String.ext
  simp [String.data_append, List.append_assoc]

/-! ## Builder claims -/

set_option maxRecDepth 8192 in
/-- C5 counterexample: for the specification's own end-to-end VMSpec
(disk-first boot), the built command does not contain `order=c,d`; for
an optical-first VMSpec it does not contain `order=d,c`.  The code emits
`order=cd` / `order=dc` (no comma inside the drive list). -/
theorem C5_boot_order_counterexample :
    containsStr "Disco duro" (bootOrderOf debianVM) = true
    ∧ containsStr "order=c,d" (build_command .kvm debianVM none none none)
        = false
    ∧ containsStr "Disco duro" (bootOrderOf installVM) = false
    ∧ containsStr "order=d,c" (build_command .kvm installVM none none none)
        = false := by
  decide

/-- C5 amended: for every VMSpec and host configuration, the built
command contains the flag `-boot order=cd,menu=on,splash-time=5000` when
the spec's boot order is disk-first (the selection whose label contains
"Disco duro"), and `-boot order=dc,menu=on,splash-time=5000` when it is
optical-first. -/
theorem C5_boot_order_flag (accel : AccelType) (vm : VirtualMachine)
    (video : Option VideoConfig) (audio : Option AudioConfig)
    (usb : Option USBConfig) :
    (containsStr "Disco duro" (bootOrderOf vm) = true →
      containsStr " -boot order=cd,menu=on,splash-time=5000 -usb"
        (build_command accel vm video audio usb) = true)
    ∧ (containsStr "Disco duro" (bootOrderOf vm) = false →
      containsStr " -boot order=dc,menu=on,splash-time=5000 -usb"
        (build_command accel vm video audio usb) = true) :=
  ⟨boot_flag_cd accel vm video audio usb,
   boot_flag_dc accel vm video audio usb⟩

/-- C5 witness: the amended statement evaluated on the disk-first
`debianVM` and the optical-first `installVM`. -/
theorem C5_boot_order_flag_witness :
    containsStr " -boot order=cd,menu=on,splash-time=5000 -usb"
      (build_command .kvm debianVM none none none) = true
    ∧ containsStr " -boot order=dc,menu=on,splash-time=5000 -usb"
      (build_command .kvm installVM none none none) = true :=
  ⟨(C5_boot_order_flag .kvm debianVM none none none).1 (by decide),
   (C5_boot_order_flag .kvm installVM none none none).2 (by decide)⟩

/-- C4: the validator `is_valid_vm_name` does reject the
shell-metacharacter name `vm; rm -rf /`, but the creation/save path
never invokes it: `save_config` stores a VMSpec under that very name,
and `build_command` interpolates the raw name into the shell command
(`-name vm; rm -rf /`). -/
theorem C4_injection_name_accepted :
    is_valid_vm_name "vm; rm -rf /" = false
    ∧ dGet (save_config "vm; rm -rf /" "/vm/x.qcow2" none 2 1024 "Linux" [])
        "vm; rm -rf /" = some injRec
    ∧ containsStr "-name vm; rm -rf /"
        (build_command .kvm
          (create_vm "vm; rm -rf /" "/vm/x.qcow2" none 2 1024 "Linux" "qxl"
            "Disco duro (para arrancar SO)")
          none none none) = true := by
  decide

/-- C10: saving a `VirtualMachine` and reading it back by name preserves
exactly the eight dataclass fields and silently drops the dynamic `vga`
and `boot_order` attributes, so command building for the reloaded VM
falls back to the defaults `qxl` and disk-first boot regardless of what
was configured before the save. -/
theorem C10_roundtrip_drops_extended (vm : VirtualMachine) (store : VMStore) :
    vmrepo_find_by_name vm.name (vmrepo_save vm store) = some (roundtripVM vm)
    ∧ (roundtripVM vm).vga = none
    ∧ (roundtripVM vm).boot_order = none
    ∧ vgaOf (roundtripVM vm) = "qxl"
    ∧ containsStr "Disco duro" (bootOrderOf (roundtripVM vm)) = true
    ∧ ∀ (accel : AccelType) (video : Option VideoConfig)
        (audio : Option AudioConfig) (usb : Option USBConfig),
        containsStr " -vga qxl -display gtk,grab-on-hover=on"
          (build_command accel (roundtripVM vm) video audio usb) = true
        ∧ containsStr " -boot order=cd,menu=on,splash-time=5000 -usb"
          (build_command accel (roundtripVM vm) video audio usb) = true := by
  have hboot : containsStr "Disco duro" (bootOrderOf (roundtripVM vm)) = true := by
    show containsStr "Disco duro" "Disco duro (para arrancar SO)" = true
    decide
  refine ⟨?_, rfl, rfl, rfl, hboot, ?_⟩
  · unfold vmrepo_find_by_name vmrepo_save roundtripVM
    rw [dGet_dSet_self]
  · intro accel video audio usb
    constructor
    · have h := vga_flag_infix accel (roundtripVM vm) video audio usb
      have hv : vgaOf (roundtripVM vm) = "qxl" := rfl
      rw [hv] at h
      have hpat : (" -vga " : String) ++ "qxl" ++ " -display gtk,grab-on-hover=on"
          = " -vga qxl -display gtk,grab-on-hover=on" := by decide
      rw [hpat] at h
      exact h
    · exact boot_flag_cd accel (roundtripVM vm) video audio usb hboot

/-! ## Character-class facts about decimal representations -/

theorem digitChar_ge16 (n : Nat) (h : 16 ≤ n) : Nat.digitChar n = '*' := by
  unfold Nat.digitChar
  repeat rw [if_neg (by omega)]

theorem digitChar_safe (n : Nat) :
    Nat.digitChar n ≠ ' ' ∧ Nat.digitChar n ≠ '-' := by
  rcases Nat.lt_or_ge n 16 with h | h
  · interval_cases n <;> exact (by decide)
  · rw [digitChar_ge16 n h]
    decide

theorem toDigitsCore_chars (P : Char → Prop) (hP : ∀ m, P (Nat.digitChar m)) :
    ∀ (fuel n : Nat) (ds : List Char), (∀ c ∈ ds, P c) →
      ∀ c ∈ Nat.toDigitsCore 10 fuel n ds, P c := by
  intro fuel
  induction fuel with
  | zero =>
    intro n ds hds c hc
    rw [Nat.toDigitsCore] at hc
    exact hds c hc
  | succ f ih =>
    intro n ds hds c hc
    rw [Nat.toDigitsCore] at hc
    by_cases hn : n / 10 = 0
    · rw [if_pos hn] at hc
      rcases List.mem_cons.mp hc with h | h
      · rw [h]; exact hP _
      · exact hds c h
    · rw [if_neg hn] at hc
      refine ih (n / 10) (Nat.digitChar (n % 10) :: ds) ?_ c hc
      intro c' hc'
      rcases List.mem_cons.mp hc' with h | h
      · rw [h]; exact hP _
      · exact hds c' h

theorem natRepr_chars (n : Nat) :
    ∀ c ∈ (Nat.repr n).data, c ≠ ' ' ∧ c ≠ '-' := by
  intro c hc
  have h1 : (Nat.repr n).data = Nat.toDigits 10 n := rfl
  rw [h1] at hc
  unfold Nat.toDigits at hc
  exact toDigitsCore_chars (fun c => c ≠ ' ' ∧ c ≠ '-')
    (fun m => digitChar_safe m) (n + 1) n [] (by simp) c hc

theorem toDigitsCore_length (fuel : Nat) :
    ∀ (n : Nat) (ds : List Char),
      ds.length ≤ (Nat.toDigitsCore 10 fuel n ds).length := by
  induction fuel with
  | zero => intro n ds; rw [Nat.toDigitsCore]
  | succ f ih =>
    intro n ds
    rw [Nat.toDigitsCore]
    by_cases hn : n / 10 = 0
    · rw [if_pos hn]; simp
    · rw [if_neg hn]
      calc ds.length ≤ (Nat.digitChar (n % 10) :: ds).length := by simp
        _ ≤ _ := ih (n / 10) (Nat.digitChar (n % 10) :: ds)

theorem natRepr_data_ne_nil (n : Nat) : (Nat.repr n).data ≠ [] := by
  intro h
  have h1 : (Nat.repr n).data = Nat.toDigits 10 n := rfl
  rw [h1] at h
  unfold Nat.toDigits at h
  rw [Nat.toDigitsCore] at h
  by_cases hn : n / 10 = 0
  · rw [if_pos hn] at h
    cases h
  · rw [if_neg hn] at h
    have := toDigitsCore_length n (n / 10) [Nat.digitChar (n % 10)]
    rw [h] at this
    simp at this

theorem noSpace_chars (s : String) (h : noSpace s = true) :
    ∀ c ∈ s.data, c ≠ ' ' := by
  intro c hc
  have := (List.all_eq_true.mp h) c hc
  simpa using this

theorem data_ne_nil (s : String) (h : s ≠ "") : s.data ≠ [] := by
  intro hd
  exact h (String.ext hd)

theorem append_chars (a b : String) (P : Char → Prop)
    (ha : ∀ c ∈ a.data, P c) (hb : ∀ c ∈ b.data, P c) :
    ∀ c ∈ (a ++ b).data, P c := by
  intro c hc
  rw [String.data_append] at hc
  rcases List.mem_append.mp hc with h | h
  · exact ha c h
  · exact hb c h

theorem append_data_ne_nil (a b : String) (h : a.data ≠ []) :
    (a ++ b).data ≠ [] := by
  rw [String.data_append]
  intro hh
  exact h (List.append_eq_nil.mp hh).1

theorem quote_path_chars (p : String) (h : ∀ c ∈ p.data, c ≠ ' ') :
    ∀ c ∈ (quote_path p).data, c ≠ ' ' := by
  unfold quote_path
  apply append_chars
  · apply append_chars
    · decide
    · exact h
  · decide

theorem quote_path_ne_nil (p : String) : (quote_path p).data ≠ [] := by
  unfold quote_path
  apply append_data_ne_nil
  apply append_data_ne_nil
  decide

/-! ## Tokenization lemmas -/

theorem tok_nil (acc : List Char) :
    tokenizeAux [] acc = if acc = [] then [] else [acc] := rfl

theorem tok_space (cs acc : List Char) :
    tokenizeAux (' ' :: cs) acc
      = (if acc = [] then [] else [acc]) ++ tokenizeAux cs [] := by
  by_cases h : acc = [] <;> simp [tokenizeAux, h]

theorem tok_run (seg : List Char) (h : ∀ c ∈ seg, c ≠ ' ') :
    ∀ (cs acc : List Char),
      tokenizeAux (seg ++ cs) acc = tokenizeAux cs (acc ++ seg) := by
  induction seg with
  | nil => intro cs acc; simp
  | cons c s ih =>
    intro cs acc
    have hc : ¬ (c = ' ') := h c (by simp)
    have hs : ∀ c' ∈ s, c' ≠ ' ' := fun c' hm => h c' (by simp [hm])
    simp only [List.cons_append, tokenizeAux, if_neg hc, List.append_eq]
    rw [ih hs]
    simp [List.append_assoc]

theorem tok_words : ∀ (ws : List (List Char)),
    (∀ w ∈ ws, (∀ c ∈ w, c ≠ ' ') ∧ w ≠ []) →
    tokenizeAux (joinSpaced ws) [] = ws := by
  intro ws
  induction ws with
  | nil => intro _; rfl
  | cons w rest ih =>
    intro h
    obtain ⟨hw, hwne⟩ := h w (by simp)
    cases rest with
    | nil =>
      have h1 := tok_run w hw [] []
      simp only [List.append_nil, List.nil_append] at h1
      show tokenizeAux w [] = [w]
      rw [h1, tok_nil, if_neg hwne]
    | cons w2 rest2 =>
      show tokenizeAux (w ++ (' ' :: joinSpaced (w2 :: rest2))) []
        = w :: w2 :: rest2
      rw [tok_run w hw, tok_space]
      simp only [List.nil_append, if_neg hwne]
      rw [ih (fun w' hw' => h w' (by simp [hw']))]
      simp

theorem asString_data (s : String) : s.data.asString = s := by
  cases s
  rfl

theorem map_asString_data (l : List String) :
    (l.map String.data).map List.asString = l := by
  induction l with
  | nil => rfl
  | cons s rest ih => simp [ih, asString_data]

theorem strTokens_join (s : String) (ts : List String)
    (hj : s.data = joinSpaced (ts.map String.data))
    (hws : ∀ w ∈ ts, (∀ c ∈ w.data, c ≠ ' ') ∧ w ≠ "") :
    strTokens s = ts := by
  unfold strTokens
  rw [hj, tok_words]
  · exact map_asString_data ts
  · intro w hw
    rcases List.mem_map.mp hw with ⟨t, ht, rfl⟩
    exact ⟨(hws t ht).1, data_ne_nil t (hws t ht).2⟩

theorem natRepr_ne_empty (n : Nat) : (toString n : String) ≠ "" := by
  intro h
  exact natRepr_data_ne_nil n (congrArg String.data h)

theorem append_ne_empty (a b : String) (h : a.data ≠ []) : a ++ b ≠ "" := by
  intro hh
  exact append_data_ne_nil a b h (congrArg String.data hh)

theorem quote_ne_empty (p : String) : quote_path p ≠ "" := by
  intro h
  exact quote_path_ne_nil p (congrArg String.data h)

set_option maxRecDepth 32768 in
set_option maxHeartbeats 2000000 in
/-- The token list of the command built for a VM with the builder's
default `video`/`audio`/`usb` arguments (the arguments the executor's
`start_vm` call site passes).  The free-form fields are assumed
space-free and non-empty, as every well-formed configuration satisfies. -/
theorem build_tokens (accel : AccelType) (vm : VirtualMachine)
    (hn : noSpace vm.name = true) (hnne : vm.name ≠ "")
    (hd : noSpace vm.disk = true)
    (hi : noSpace (vm.iso.getD "") = true)
    (hv : noSpace (vgaOf vm) = true) (hvne : vgaOf vm ≠ "") :
    strTokens (build_command accel vm none none none)
      = ["qemu-system-x86_64", "-name", vm.name, "-m", toString vm.ram,
         "-smp", "cores=" ++ toString vm.cpus]
        ++ (match vm.iso with
            | none => []
            | some i => if i = "" then [] else ["-cdrom", quote_path i])
        ++ (if vm.disk = "" then [] else ["-hda", quote_path vm.disk])
        ++ (if containsStr "Disco duro" (bootOrderOf vm) then
              ["-boot", "order=cd,menu=on,splash-time=5000"]
            else ["-boot", "order=dc,menu=on,splash-time=5000"])
        ++ ["-usb", "-device", "usb-kbd", "-device", "usb-mouse",
            "-vga", vgaOf vm, "-display", "gtk,grab-on-hover=on",
            "-net", "nic,model=virtio", "-net", "user"]
        ++ accelTokens accel
        ++ ["&"] := by
  have haccA : ∀ w ∈ accelTokens accel,
      (∀ c ∈ w.data, c ≠ ' ') ∧ w ≠ "" := by
    cases accel <;> decide
  rcases hiso : vm.iso with _ | i
  · by_cases hdisk : vm.disk = "" <;>
    by_cases hboot : containsStr "Disco duro" (bootOrderOf vm) = true <;>
    · simp only [hiso, hdisk, hboot, eq_self_iff_true, ite_true, ite_false]
      refine strTokens_join _ _ ?_ ?_
      · cases accel <;>
          simp [build_command, hiso, hdisk, hboot, get_acceleration_flag,
            accelTokens, quote_path, joinSpaced, String.data_append,
            List.append_assoc]
      · simp only [List.forall_mem_append, List.forall_mem_cons]
        repeat' constructor
        all_goals first
          | decide
          | exact noSpace_chars vm.name hn
          | exact hnne
          | exact noSpace_chars (vgaOf vm) hv
          | exact hvne
          | exact (fun c hc => (natRepr_chars vm.ram c hc).1)
          | exact natRepr_ne_empty vm.ram
          | exact append_chars "cores=" (toString vm.cpus) _ (by decide)
              (fun c hc => (natRepr_chars vm.cpus c hc).1)
          | exact append_ne_empty "cores=" (toString vm.cpus) (by decide)
          | exact quote_path_chars vm.disk (noSpace_chars vm.disk hd)
          | exact quote_ne_empty vm.disk
          | exact haccA
          | exact fun x hx => absurd hx (List.not_mem_nil x)
  · rw [hiso] at hi
    by_cases hie : i = ""
    · by_cases hdisk : vm.disk = "" <;>
      by_cases hboot : containsStr "Disco duro" (bootOrderOf vm) = true <;>
      · simp only [hiso, hie, hdisk, hboot, eq_self_iff_true, ite_true, ite_false]
        refine strTokens_join _ _ ?_ ?_
        · cases accel <;>
            simp [build_command, hiso, hie, hdisk, hboot,
              get_acceleration_flag, accelTokens, quote_path, joinSpaced,
              String.data_append, List.append_assoc]
        · simp only [List.forall_mem_append, List.forall_mem_cons]
          repeat' constructor
          all_goals first
            | decide
            | exact noSpace_chars vm.name hn
            | exact hnne
            | exact noSpace_chars (vgaOf vm) hv
            | exact hvne
            | exact (fun c hc => (natRepr_chars vm.ram c hc).1)
            | exact natRepr_ne_empty vm.ram
            | exact append_chars "cores=" (toString vm.cpus) _ (by decide)
                (fun c hc => (natRepr_chars vm.cpus c hc).1)
            | exact append_ne_empty "cores=" (toString vm.cpus) (by decide)
            | exact quote_path_chars vm.disk (noSpace_chars vm.disk hd)
            | exact quote_ne_empty vm.disk
            | exact haccA
            | exact fun x hx => absurd hx (List.not_mem_nil x)
    · by_cases hdisk : vm.disk = "" <;>
      by_cases hboot : containsStr "Disco duro" (bootOrderOf vm) = true <;>
      · simp only [hiso, hie, hdisk, hboot, eq_self_iff_true, ite_true, ite_false]
        refine strTokens_join _ _ ?_ ?_
        · cases accel <;>
            simp [build_command, hiso, hie, hdisk, hboot,
              get_acceleration_flag, accelTokens, quote_path, joinSpaced,
              String.data_append, List.append_assoc]
        · simp only [List.forall_mem_append, List.forall_mem_cons]
          repeat' constructor
          all_goals first
            | decide
            | exact noSpace_chars vm.name hn
            | exact hnne
            | exact noSpace_chars (vgaOf vm) hv
            | exact hvne
            | exact (fun c hc => (natRepr_chars vm.ram c hc).1)
            | exact natRepr_ne_empty vm.ram
            | exact append_chars "cores=" (toString vm.cpus) _ (by decide)
                (fun c hc => (natRepr_chars vm.cpus c hc).1)
            | exact append_ne_empty "cores=" (toString vm.cpus) (by decide)
            | exact quote_path_chars vm.disk (noSpace_chars vm.disk hd)
            | exact quote_ne_empty vm.disk
            | exact quote_path_chars i (noSpace_chars i hi)
            | exact quote_ne_empty i
            | exact haccA
            | exact fun x hx => absurd hx (List.not_mem_nil x)

theorem quote_path_ne_cdrom (p : String) : quote_path p ≠ "-cdrom" := by
  intro h
  have hd := congrArg String.data h
  simp [quote_path, String.data_append] at hd

theorem quote_path_ne_hda (p : String) : quote_path p ≠ "-hda" := by
  intro h
  have hd := congrArg String.data h
  simp [quote_path, String.data_append] at hd

theorem cores_ne_cdrom (n : Nat) :
    "cores=" ++ (toString n : String) ≠ "-cdrom" := by
  intro h
  have hd := congrArg String.data h
  simp [String.data_append] at hd

theorem cores_ne_hda (n : Nat) :
    "cores=" ++ (toString n : String) ≠ "-hda" := by
  intro h
  have hd := congrArg String.data h
  simp [String.data_append] at hd

theorem natRepr_ne_cdrom (n : Nat) : (toString n : String) ≠ "-cdrom" := by
  intro h
  have hm : '-' ∈ (toString n : String).data := by rw [h]; decide
  exact (natRepr_chars n '-' hm).2 rfl

theorem natRepr_ne_hda (n : Nat) : (toString n : String) ≠ "-hda" := by
  intro h
  have hm : '-' ∈ (toString n : String).data := by rw [h]; decide
  exact (natRepr_chars n '-' hm).2 rfl

set_option maxRecDepth 32768 in
set_option maxHeartbeats 2000000 in
/-- C7 amended: every built command carries `-m` and `-smp cores=` with
exactly the spec's `ram` and `cpus` values (the contiguous fragment
`" -m <ram> -smp cores=<cpus>"` occurs in the command, for every
video/audio/USB sub-configuration, with no hypotheses); and, tokenizing
the command built at the executor's call site (default
sub-configurations), a `-cdrom` token is present iff `isoPath` is set
(non-`None`, non-empty) and a `-hda` token is present iff `diskPath` is
set — *provided* the free-form fields are space-free and non-empty and
the name and video adapter are not the literal flag words `-cdrom` /
`-hda`.  The proviso cannot be dropped: `C7_media_flag_counterexample`
exhibits the spec-valid name `-cdrom` defeating the iff. -/
theorem C7_resource_and_media_flags (accel : AccelType) (vm : VirtualMachine)
    (hn : noSpace vm.name = true) (hnne : vm.name ≠ "")
    (hncd : vm.name ≠ "-cdrom") (hnhd : vm.name ≠ "-hda")
    (hd : noSpace vm.disk = true)
    (hi : noSpace (vm.iso.getD "") = true)
    (hv : noSpace (vgaOf vm) = true) (hvne : vgaOf vm ≠ "")
    (hvcd : vgaOf vm ≠ "-cdrom") (hvhd : vgaOf vm ≠ "-hda") :
    (∀ (video : Option VideoConfig) (audio : Option AudioConfig)
        (usb : Option USBConfig),
      containsStr
        (" -m " ++ toString vm.ram ++ " -smp cores=" ++ toString vm.cpus)
        (build_command accel vm video audio usb) = true)
    ∧ ("-cdrom" ∈ strTokens (build_command accel vm none none none)
        ↔ vm.iso.getD "" ≠ "")
    ∧ ("-hda" ∈ strTokens (build_command accel vm none none none)
        ↔ vm.disk ≠ "") := by
  refine ⟨?_, ?_⟩
  · intro video audio usb
    apply containsStr_of_split _ _
      ("qemu-system-x86_64" ++ (" -name " ++ vm.name))
      ((match vm.iso with
          | none => ""
          | some i => if i = "" then "" else " -cdrom " ++ quote_path i)
        ++ (if vm.disk = "" then "" else " -hda " ++ quote_path vm.disk)
        ++ (if containsStr "Disco duro" (bootOrderOf vm) then
              " -boot order=cd,menu=on,splash-time=5000"
            else
              " -boot order=dc,menu=on,splash-time=5000")
        ++ " -usb"
        ++ " -device usb-kbd"
        ++ " -device usb-mouse"
        ++ (" -vga " ++ vgaOf vm)
        ++ " -display gtk,grab-on-hover=on"
        ++ (match video with
            | none => ""
            | some v =>
              (if v.gl_acceleration then " -enable-kvm" else "")
              ++ (if v.virgl then " -device virtio-gpu-gl" else ""))
        ++ (match audio with
            | none => ""
            | some a =>
              if a.enabled then
                (" -audiodev " ++ a.driver ++ ",id=audio0")
                ++ (" -device " ++ a.model ++ ",audiodev=audio0")
              else "")
        ++ " -net nic,model=virtio"
        ++ " -net user"
        ++ (match usb with
            | none => ""
            | some u => " -device usb-ehci,id=ehci" ++ usbPortFlags u.ports)
        ++ get_acceleration_flag accel
        ++ " &")
    unfold build_command
    apply String.ext
    simp [String.data_append, List.append_assoc]
  · rw [build_tokens accel vm hn hnne hd hi hv hvne]
    have hb1 : "-cdrom" ∉ (if containsStr "Disco duro" (bootOrderOf vm) then
        ["-boot", "order=cd,menu=on,splash-time=5000"]
      else ["-boot", "order=dc,menu=on,splash-time=5000"]) := by
      split <;> decide
    have hb2 : "-hda" ∉ (if containsStr "Disco duro" (bootOrderOf vm) then
        ["-boot", "order=cd,menu=on,splash-time=5000"]
      else ["-boot", "order=dc,menu=on,splash-time=5000"]) := by
      split <;> decide
    have ha1 : "-cdrom" ∉ accelTokens accel := by cases accel <;> decide
    have ha2 : "-hda" ∉ accelTokens accel := by cases accel <;> decide
    rcases hiso : vm.iso with _ | i
    · by_cases hdisk : vm.disk = "" <;>
        simp [hiso, hdisk, hb1, hb2, ha1, ha2,
          Ne.symm hncd, Ne.symm hnhd, Ne.symm hvcd, Ne.symm hvhd,
          Ne.symm (natRepr_ne_cdrom vm.ram), Ne.symm (natRepr_ne_hda vm.ram),
          Ne.symm (cores_ne_cdrom vm.cpus), Ne.symm (cores_ne_hda vm.cpus),
          Ne.symm (quote_path_ne_cdrom vm.disk),
          Ne.symm (quote_path_ne_hda vm.disk)]
    · by_cases hie : i = "" <;> by_cases hdisk : vm.disk = "" <;>
        simp [hiso, hie, hdisk, hb1, hb2, ha1, ha2,
          Ne.symm hncd, Ne.symm hnhd, Ne.symm hvcd, Ne.symm hvhd,
          Ne.symm (natRepr_ne_cdrom vm.ram), Ne.symm (natRepr_ne_hda vm.ram),
          Ne.symm (cores_ne_cdrom vm.cpus), Ne.symm (cores_ne_hda vm.cpus),
          Ne.symm (quote_path_ne_cdrom vm.disk),
          Ne.symm (quote_path_ne_hda vm.disk),
          Ne.symm (quote_path_ne_cdrom i), Ne.symm (quote_path_ne_hda i)]

/-- C7 witness: the flags evaluated on the specification's end-to-end
`debianVM` (no ISO, disk set). -/
theorem C7_resource_and_media_flags_witness :
    containsStr
      (" -m " ++ toString debianVM.ram ++ " -smp cores="
        ++ toString debianVM.cpus)
      (build_command .kvm debianVM none none none) = true
    ∧ ("-cdrom" ∈ strTokens (build_command .kvm debianVM none none none)
        ↔ debianVM.iso.getD "" ≠ "")
    ∧ ("-hda" ∈ strTokens (build_command .kvm debianVM none none none)
        ↔ debianVM.disk ≠ "") := by
  have h := C7_resource_and_media_flags .kvm debianVM (by decide) (by decide)
    (by decide) (by decide) (by decide) (by decide) (by decide) (by decide)
    (by decide) (by decide)
  exact ⟨h.1 none none none, h.2.1, h.2.2⟩

set_option maxRecDepth 32768 in
/-- C7 counterexample: the claim's iff fails when quantified over *every*
VMSpec.  The name `-cdrom` passes `is_valid_vm_name`, yet the command
built for `cdromVM` — which has no ISO configured — contains a `-cdrom`
token (the interpolated `-name` value itself). -/
theorem C7_media_flag_counterexample :
    is_valid_vm_name "-cdrom" = true
    ∧ cdromVM.iso = none
    ∧ "-cdrom" ∈ strTokens (build_command .kvm cdromVM none none none) := by
  decide
